import Mathlib

/-!
# Verification of the i-PI `dynamics.py` integrator engine

Shallow embedding of `src/ipi/engine/motion/dynamics.py`: the recursive
multiple-time-step (MTS) propagators of `NVEIntegrator`, the momentum
constraint routine `DummyIntegrator.pconstraints`, the derived timestep
functions `get_pdt` / `get_qdt` / `get_tdt`, the NPT stress-tensor sanity
check, the EDA clock handling, and the binding / configuration-check
order of `Dynamics`. Machine floats are modelled by `ℚ`.
-/

set_option autoImplicit false

namespace IPI

instance {e a : Type} [DecidableEq e] [DecidableEq a] :
    DecidableEq (Except e a) := fun x y =>
  match x, y with
  | .error u, .error v =>
      if h : u = v then isTrue (by rw [h])
      else isFalse (fun hc => h (by cases hc; rfl))
  | .ok u, .ok v =>
      if h : u = v then isTrue (by rw [h])
      else isFalse (fun hc => h (by cases hc; rfl))
  | .error _, .ok _ => isFalse (fun hc => Except.noConfusion hc)
  | .ok _, .error _ => isFalse (fun hc => Except.noConfusion hc)

/-! ## Event traces of the recursive MTS propagators

`NVEIntegrator.mtsprop_ba` / `mtsprop_ab` / `mtsprop` are modelled as
functions producing the list of observable calls they make, in order.
`Ev.pstep l` records a call `self.pstep(l)` (each such call invokes
`self.forces.forces_mts(l)` exactly once); `Ev.pcon` records a
`self.pconstraints()` call; `Ev.qcstep` and `Ev.free_qstep` record the
centroid drift and the normal-mode free propagation.

The Lean functions take the *suffix* `nmts[index:]` of the MTS level
vector; recorded levels are relative to the current index and are
shifted by `shiftEv` when returning from a recursive call, so that
`mtsprop n` (full vector) records absolute levels. -/

inductive Ev where
  | pstep (level : ℕ)
  | pcon
  | qcstep
  | free_qstep
  deriving DecidableEq, Repr

def shiftEv : Ev → Ev
  | .pstep l => .pstep (l + 1)
  | .pcon => .pcon
  | .qcstep => .qcstep
  | .free_qstep => .free_qstep

mutual

/-- `NVEIntegrator.mtsprop_ba(index)` (dynamics.py lines 464-494), on the
suffix `nmts[index:]`.  `m / 2` is `int(self.nmts[index] / 2)`; the inner
branch `index == self.nmtslevels - 1` corresponds to the suffix being a
single level. -/
def mtsprop_ba : List ℕ → List Ev
  | [] => []
  | m :: rest =>
    (List.replicate (m / 2)
      ([Ev.pstep 0, Ev.pcon] ++
        (match rest with
          | [] => [Ev.qcstep, Ev.free_qstep, Ev.qcstep, Ev.free_qstep]
          | r :: rs => (mtsprop (r :: rs)).map shiftEv) ++
        [Ev.pstep 0, Ev.pcon])).flatten ++
    (if m % 2 = 1 then
        [Ev.pstep 0, Ev.pcon] ++
          (match rest with
            | [] => [Ev.qcstep, Ev.free_qstep]
            | r :: rs => (mtsprop_ba (r :: rs)).map shiftEv)
      else [])
termination_by n => (n.length, 0)

/-- `NVEIntegrator.mtsprop_ab(index)` (dynamics.py lines 496-524): the
odd leftover piece first, then the `m / 2` full sub-steps. -/
def mtsprop_ab : List ℕ → List Ev
  | [] => []
  | m :: rest =>
    (if m % 2 = 1 then
        (match rest with
          | [] => [Ev.qcstep, Ev.free_qstep]
          | r :: rs => (mtsprop_ab (r :: rs)).map shiftEv) ++
          [Ev.pstep 0, Ev.pcon]
      else []) ++
    (List.replicate (m / 2)
      ([Ev.pstep 0, Ev.pcon] ++
        (match rest with
          | [] => [Ev.qcstep, Ev.free_qstep, Ev.qcstep, Ev.free_qstep]
          | r :: rs => (mtsprop (r :: rs)).map shiftEv) ++
        [Ev.pstep 0, Ev.pcon])).flatten
termination_by n => (n.length, 0)

/-- `NVEIntegrator.mtsprop(index)` (dynamics.py lines 526-529): the two
pieces called together.  `NVEIntegrator.step` is `mtsprop` on the full
`nmts` vector. -/
def mtsprop (n : List ℕ) : List Ev := mtsprop_ba n ++ mtsprop_ab n
termination_by (n.length, 1)

end

/-- Number of `pstep l` calls (= `forces_mts(l)` invocations) in a trace. -/
def countP (l : ℕ) (evs : List Ev) : ℕ := evs.count (Ev.pstep l)

theorem shiftEv_injective : Function.Injective shiftEv := by
  intro a b h
  cases a <;> cases b <;> simp [shiftEv] at h <;> simp [h]

theorem countP_append (l : ℕ) (xs ys : List Ev) :
    countP l (xs ++ ys) = countP l xs + countP l ys := by
  simp [countP, List.count_append]

theorem countP_flatten_replicate (l k : ℕ) (xs : List Ev) :
    countP l (List.replicate k xs).flatten = k * countP l xs := by
  induction k with
  | zero => simp [countP]
  | succ k ih =>
      simp [List.replicate_succ, countP_append, ih, Nat.succ_mul]
      omega

theorem countP_map_shift (l : ℕ) (evs : List Ev) :
    countP (l + 1) (evs.map shiftEv) = countP l evs := by
  simpa [countP, shiftEv] using
    List.count_map_of_injective evs shiftEv shiftEv_injective (Ev.pstep l)

theorem countP_zero_map_shift (evs : List Ev) :
    countP 0 (evs.map shiftEv) = 0 := by
  simp only [countP]
  rw [List.count_eq_zero]
  intro h
  rcases List.mem_map.mp h with ⟨e, _, he⟩
  cases e <;> simp [shiftEv] at he

@[simp] theorem countP_nil (l : ℕ) : countP l [] = 0 := by
  simp [countP]

@[simp] theorem countP_cons_pcon (l : ℕ) (evs : List Ev) :
    countP l (Ev.pcon :: evs) = countP l evs := by
  simp [countP, List.count_cons]

@[simp] theorem countP_cons_qcstep (l : ℕ) (evs : List Ev) :
    countP l (Ev.qcstep :: evs) = countP l evs := by
  simp [countP, List.count_cons]

@[simp] theorem countP_cons_free_qstep (l : ℕ) (evs : List Ev) :
    countP l (Ev.free_qstep :: evs) = countP l evs := by
  simp [countP, List.count_cons]

@[simp] theorem countP_cons_pstep (l k : ℕ) (evs : List Ev) :
    countP l (Ev.pstep k :: evs) = countP l evs + if l = k then 1 else 0 := by
  by_cases h : l = k <;> simp [countP, List.count_cons, h]

attribute [simp] countP_append countP_flatten_replicate countP_map_shift
  countP_zero_map_shift

theorem mtsprop_eq (n : List ℕ) : mtsprop n = mtsprop_ba n ++ mtsprop_ab n := by
  rw [mtsprop]

/-- `mtsprop_ba(index)` performs exactly `nmts[index]` momentum kicks at
its own level: `2 * (nmts[index] / 2)` inside the even loop plus one for
the odd leftover. -/
theorem countP_ba_zero (m : ℕ) (rest : List ℕ) :
    countP 0 (mtsprop_ba (m :: rest)) = m := by
  cases rest with
  | nil => by_cases h : m % 2 = 1 <;> simp [mtsprop_ba, h] <;> omega
  | cons r rs => by_cases h : m % 2 = 1 <;> simp [mtsprop_ba, h] <;> omega

theorem countP_ab_zero (m : ℕ) (rest : List ℕ) :
    countP 0 (mtsprop_ab (m :: rest)) = m := by
  cases rest with
  | nil => by_cases h : m % 2 = 1 <;> simp [mtsprop_ab, h] <;> omega
  | cons r rs => by_cases h : m % 2 = 1 <;> simp [mtsprop_ab, h] <;> omega

/-- Recurrence for deeper levels in `mtsprop_ba`: the even loop recurses
into `mtsprop`, the odd leftover into `mtsprop_ba`. -/
theorem countP_ba_succ (l m r : ℕ) (rs : List ℕ) :
    countP (l + 1) (mtsprop_ba (m :: r :: rs)) =
      m / 2 * countP l (mtsprop (r :: rs)) +
        (if m % 2 = 1 then countP l (mtsprop_ba (r :: rs)) else 0) := by
  by_cases h : m % 2 = 1 <;> simp [mtsprop_ba, h]

theorem countP_ab_succ (l m r : ℕ) (rs : List ℕ) :
    countP (l + 1) (mtsprop_ab (m :: r :: rs)) =
      m / 2 * countP l (mtsprop (r :: rs)) +
        (if m % 2 = 1 then countP l (mtsprop_ab (r :: rs)) else 0) := by
  by_cases h : m % 2 = 1
  · simp [mtsprop_ab, h]
    ring
  · simp [mtsprop_ab, h]

/-- Per outer step (`mtsprop` at level 0), the number of `pstep(l)` calls -
hence of `forces_mts(l)` invocations - is `2 * nmts[0] * ... * nmts[l]`. -/
theorem countP_mtsprop (n : List ℕ) :
    ∀ l, l < n.length → countP l (mtsprop n) = 2 * ((n.take (l + 1)).prod) := by
  induction n with
  | nil => intro l hl; simp at hl
  | cons m rest ih =>
      intro l hl
      cases l with
      | zero =>
          rw [mtsprop_eq, countP_append, countP_ba_zero, countP_ab_zero]
          simp
          omega
      | succ l =>
          cases rest with
          | nil => simp at hl
          | cons r rs =>
              have hlt : l < (r :: rs).length := by
                simpa using Nat.lt_of_succ_lt_succ hl
              have hF := ih l hlt
              have hsum : countP l (mtsprop_ba (r :: rs)) +
                  countP l (mtsprop_ab (r :: rs)) =
                  countP l (mtsprop (r :: rs)) := by
                rw [mtsprop_eq, countP_append]
              rw [mtsprop_eq, countP_append, countP_ba_succ, countP_ab_succ]
              conv_rhs => rw [List.take_succ_cons, List.prod_cons]
              by_cases h : m % 2 = 1
              · rw [if_pos h, if_pos h]
                obtain ⟨q, hq⟩ : ∃ q, m = 2 * q + 1 := ⟨m / 2, by omega⟩
                subst hq
                have h2 : (2 * q + 1) / 2 = q := by omega
                rw [h2]
                calc q * countP l (mtsprop (r :: rs)) +
                      countP l (mtsprop_ba (r :: rs)) +
                      (q * countP l (mtsprop (r :: rs)) +
                        countP l (mtsprop_ab (r :: rs)))
                    = 2 * q * countP l (mtsprop (r :: rs)) +
                      (countP l (mtsprop_ba (r :: rs)) +
                        countP l (mtsprop_ab (r :: rs))) := by ring
                  _ = (2 * q + 1) * countP l (mtsprop (r :: rs)) := by
                        rw [hsum]; ring
                  _ = (2 * q + 1) * (2 * ((r :: rs).take (l + 1)).prod) := by
                        rw [hF]
                  _ = 2 * ((2 * q + 1) * ((r :: rs).take (l + 1)).prod) := by
                        ring
              · rw [if_neg h, if_neg h]
                obtain ⟨q, hq⟩ : ∃ q, m = 2 * q := ⟨m / 2, by omega⟩
                subst hq
                have h2 : 2 * q / 2 = q := by omega
                rw [h2, hF]
                ring

/-! ## Claim C1 -/

/-- **C1, counterexample.** The claim states that during one outer NVE step
the number of `forces_mts(level)` invocations (one per `pstep(level)` call)
equals `nmts[0] * ... * nmts[level]`.  For the concrete vector `nmts = [1]`
and `level = 0` the trace of `mtsprop(0)` contains two `pstep(0)` calls
(`mtsprop_ba` contributes the odd kick, `mtsprop_ab` its mirror), while the
product is `1`. -/
theorem C1_claim_counterexample :
    countP 0 (mtsprop [1]) ≠ ((([1] : List ℕ).take 1).prod) := by
  rw [mtsprop_eq, countP_append, countP_ba_zero, countP_ab_zero]
  decide

/-- **C1 (amended).** For every configured `nmts` vector, during one outer
step of the NVE integrator (`mtsprop(0) = mtsprop_ba(0); mtsprop_ab(0)`),
the number of times `forces_mts(level)` is invoked (one invocation per
`pstep(level)` call) equals **twice** the product
`nmts[0] * ... * nmts[level]`, for every level. -/
theorem C1_mts_forces_count (n : List ℕ) (l : ℕ) (hl : l < n.length) :
    countP l (mtsprop n) = 2 * ((n.take (l + 1)).prod) :=
  countP_mtsprop n l hl

theorem C1_mts_forces_count_witness :
    1 < ([2, 3] : List ℕ).length ∧
      countP 1 (mtsprop [2, 3]) = 2 * ((([2, 3] : List ℕ).take 2).prod) :=
  ⟨by decide, C1_mts_forces_count [2, 3] 1 (by decide)⟩


/-! ## NPT / SC-NPT stress-tensor sanity check (claim C2) -/

/-- Outcome of the stress-check part of `NPTIntegrator.pstep` (dynamics.py
lines 637-655) and `SCNPTIntegrator.pstep` (lines 782-800; the two bodies
are identical).  `warned` records whether `warning(...)` was called; `res`
is `.error` when the `ValueError` aborts the run, else `.ok flag'` with the
value of `_stresscheck` after the call — the assignment
`self._stresscheck = False` (line 652) is reached only when the `raise`
did not fire, and an aborted run has no "after". -/
structure StressStepOut where
  warned : Bool
  res : Except String Bool
  deriving DecidableEq, Repr

/-- The check itself: `if self._stresscheck and np.array_equiv(vir, 0): warn;
if verbosity.medium: raise`, then `self._stresscheck = False`. -/
def npt_pstep_stresscheck (stresscheck virZero verbMedium : Bool) :
    StressStepOut :=
  if stresscheck && virZero then
    { warned := true
      res :=
        if verbMedium then
          Except.error
            "Zero stress terminates simulation for medium verbosity and above."
        else Except.ok false }
  else { warned := false, res := Except.ok false }

/-- `DummyIntegrator.bind` initialises the flag to `True` (line 362). -/
def bind_stresscheck : Bool := true

/-- **C2 (confirmed).** The stress/virial sanity check of the NPT and SC-NPT
integrators is a one-shot guard: the `_stresscheck` flag starts `true` at
bind; every `pstep` call that returns (does not abort) leaves it `false`;
with the flag `false` the virial is never inspected (no warning, no abort,
whatever the virial is); and when the check fires on an all-zero virial the
run aborts fatally at verbosity medium and above, while below that
threshold only a warning is emitted and the run continues. -/
theorem C2_stresscheck_one_shot :
    bind_stresscheck = true ∧
    (∀ v m f : Bool,
      (npt_pstep_stresscheck true v m).res = Except.ok f → f = false) ∧
    (∀ v m : Bool,
      npt_pstep_stresscheck false v m = ⟨false, Except.ok false⟩) ∧
    (∀ m : Bool, (npt_pstep_stresscheck true true m).warned = true) ∧
    (npt_pstep_stresscheck true true true).res =
      Except.error
        "Zero stress terminates simulation for medium verbosity and above." ∧
    (npt_pstep_stresscheck true true false).res = Except.ok false := by
  decide

/-! ## Bind-time configuration checks of `Dynamics` (claims C3, C6) -/

/-- The configuration data that the checks `Dynamics.bind` actually performs
(dynamics.py lines 172-175 and 229-248) look at.  `splitting` is carried
along because the dynamics owns it, but no bind-time check reads it.
`pextUnset` models `np.allclose(self.ensemble.pext, -12345)` and
`stressextDiagUnset` models `np.allclose(stressext.diagonal(), -12345)`
(the i-PI "unset" sentinels). -/
structure BindCfg where
  mode : String
  splitting : String
  nmtsLen : ℕ
  forcesNmtsLevels : ℕ
  temp : ℚ
  barostatIsDefault : Bool
  pextUnset : Bool
  stressextDiagUnset : Bool

/-- All raise-points of `Dynamics.bind`, in source order.  Creating the
lazy depend nodes for `qdt`/`pdt`/`tdt` during `integrator.bind` does not
evaluate their recomputation rules (spec §4.1: pipe installation and node
creation do not force evaluation; first use does), so no splitting-mode
or timestep computation happens here. -/
def dynamics_bind_checks (c : BindCfg) : Except String Unit :=
  if c.nmtsLen ≠ c.forcesNmtsLevels then
    Except.error
      "The number of mts levels for the integrator does not agree with the mts_weights of the force components."
  else if c.mode = "nvt" ∨ c.mode = "nvt-cc" ∨ c.mode = "npt" ∨ c.mode = "nst"
  then
    if c.temp < 0 then
      Except.error "Negative or unspecified temperature for a constant-T integrator"
    else if c.mode = "npt" then
      if c.barostatIsDefault then
        Except.error
          "The barostat and its mode have to be specified for constant-p integrators"
      else if c.pextUnset then
        Except.error "Unspecified pressure for a constant-p integrator"
      else Except.ok ()
    else if c.mode = "nst" then
      if c.stressextDiagUnset then
        Except.error "Unspecified stress for a constant-s integrator"
      else Except.ok ()
    else Except.ok ()
  else Except.ok ()

/-- `EDAIntegrator.step` (dynamics.py lines 892-897): the MTS guard runs at
the top of the *step* routine; only when it passes is `super().step(step)`
reached, which for `EDANVEIntegrator` is `NVEIntegrator.step`, i.e.
`mtsprop(0)`. -/
def eda_integrator_step (nmts : List ℕ) : Except String (List Ev) :=
  if nmts.length > 1 then
    Except.error
      "EDAIntegrator is not implemented with the Multiple Time Step algorithm (yet)."
  else Except.ok (mtsprop nmts)

/-- A bind-time configuration for the field-driven ensemble with two MTS
levels: every check of `Dynamics.bind` passes. -/
def edaTwoLevelCfg : BindCfg :=
  { mode := "eda-nve", splitting := "obabo", nmtsLen := 2,
    forcesNmtsLevels := 2, temp := 1, barostatIsDefault := true,
    pextUnset := true, stressextDiagUnset := true }

/-- **C3, counterexample.** With `mode = "eda-nve"` and `len(nmts) = 2`
(matching the force levels), `Dynamics.bind` raises no error at all — the
fatal rejection of MTS levels > 1 happens only in `EDAIntegrator.step`,
i.e. at the first step, not at bind time as the claim states. -/
theorem C3_claim_counterexample :
    dynamics_bind_checks edaTwoLevelCfg = Except.ok () ∧
      eda_integrator_step [2, 2] =
        Except.error
          "EDAIntegrator is not implemented with the Multiple Time Step algorithm (yet)." := by
  constructor
  · decide
  · rw [eda_integrator_step, if_pos (by decide)]

/-- **C3 (amended).** For every field-driven (EDA) ensemble configured with
more than one MTS level, the fatal configuration error is raised at the top
of the first `step()` call, before any propagation occurs (`super().step`,
hence `mtsprop(0)`, is never reached); `Dynamics.bind` itself raises no
error for such a configuration (provided the level count matches the force
components). -/
theorem C3_eda_mts_rejected_at_step (c : BindCfg) (nmts : List ℕ)
    (hmode : c.mode = "eda-nve") (hlen : c.nmtsLen = c.forcesNmtsLevels)
    (hmts : nmts.length > 1) :
    dynamics_bind_checks c = Except.ok () ∧
      eda_integrator_step nmts =
        Except.error
          "EDAIntegrator is not implemented with the Multiple Time Step algorithm (yet)." := by
  have hne1 : ("eda-nve" : String) ≠ "nvt" := by decide
  have hne2 : ("eda-nve" : String) ≠ "nvt-cc" := by decide
  have hne3 : ("eda-nve" : String) ≠ "npt" := by decide
  have hne4 : ("eda-nve" : String) ≠ "nst" := by decide
  refine ⟨?_, ?_⟩
  · simp [dynamics_bind_checks, hmode, hlen, hne1, hne2, hne3, hne4]
  · rw [eda_integrator_step, if_pos hmts]

theorem C3_eda_mts_rejected_at_step_witness :
    dynamics_bind_checks edaTwoLevelCfg = Except.ok () ∧
      eda_integrator_step [2, 2] =
        Except.error
          "EDAIntegrator is not implemented with the Multiple Time Step algorithm (yet)." :=
  C3_eda_mts_rejected_at_step edaTwoLevelCfg [2, 2] rfl rfl (by decide)

/-- `DummyIntegrator.get_tdt` (dynamics.py lines 290-298), with `0.5`
modelled as `1/2 : ℚ`. -/
def get_tdt (dt : ℚ) (splitting : String) : Except String ℚ :=
  if splitting = "obabo" then Except.ok (dt * (1 / 2))
  else if splitting = "baoab" then Except.ok dt
  else
    Except.error "Invalid splitting requested. Only OBABO and BAOAB are supported."

/-- **C6, counterexample.** With an invalid splitting string `"foo"`, every
bind-time check of `Dynamics.bind` passes (the splitting string is not
inspected at bind time; `get_tdt` is installed as a lazy recomputation rule
and only runs when `tdt` is first read), while evaluating `get_tdt` does
raise the fatal error — so the error is *not* detected at bind time as the
claim states. -/
theorem C6_claim_counterexample :
    dynamics_bind_checks
        { mode := "nvt", splitting := "foo", nmtsLen := 1,
          forcesNmtsLevels := 1, temp := 1, barostatIsDefault := true,
          pextUnset := true, stressextDiagUnset := true } = Except.ok () ∧
      get_tdt 1 "foo" =
        Except.error
          "Invalid splitting requested. Only OBABO and BAOAB are supported." := by
  constructor
  · decide
  · decide

/-- **C6 (amended).** The thermostat step size `tdt` equals `dt * 0.5` for
splitting `"obabo"` and `dt` for `"baoab"`; any other splitting string is a
fatal configuration error, raised when `get_tdt` is first evaluated (first
read of `tdt`, e.g. by the first thermostat step) — not at bind time, since
the bind-time checks never inspect the splitting string. -/
theorem C6_tdt_values (dt : ℚ) (s : String)
    (h1 : s ≠ "obabo") (h2 : s ≠ "baoab") :
    get_tdt dt "obabo" = Except.ok (dt * (1 / 2)) ∧
      get_tdt dt "baoab" = Except.ok dt ∧
      get_tdt dt s =
        Except.error
          "Invalid splitting requested. Only OBABO and BAOAB are supported." ∧
      (∀ c : BindCfg, dynamics_bind_checks { c with splitting := s } =
        dynamics_bind_checks c) := by
  refine ⟨by simp [get_tdt], by simp [get_tdt], ?_, fun c => rfl⟩
  rw [get_tdt, if_neg h1, if_neg h2]

theorem C6_tdt_values_witness :
    get_tdt 2 "obabo" = Except.ok (2 * (1 / 2)) ∧
      get_tdt 2 "baoab" = Except.ok 2 ∧
      get_tdt 2 "foo" =
        Except.error
          "Invalid splitting requested. Only OBABO and BAOAB are supported." ∧
      (∀ c : BindCfg, dynamics_bind_checks { c with splitting := "foo" } =
        dynamics_bind_checks c) :=
  C6_tdt_values 2 "foo" (by decide) (by decide)

/-! ## Frozen-atom / thermostat compatibility check (claim C8) -/

/-- dynamics.py lines 79-85:
`thermostat.__class__.__name__ is ("ThermoPILE_G" or "ThermoNMGLEG ")`.
In Python the parenthesised `("ThermoPILE_G" or "ThermoNMGLEG ")` evaluates
to its first operand (a non-empty string is truthy), so the runtime class
name is compared against `"ThermoPILE_G"` alone and the second literal
(which carries a trailing space) is never consulted; `is` between interned
string literals behaves as equality. -/
def thermo_fixatoms_check (thermoClassName : String) (nfixatoms : ℕ) :
    Except String Unit :=
  if thermoClassName = "ThermoPILE_G" ∧ 0 < nfixatoms then
    Except.error
      "!! Sorry, fixed atoms and global thermostat on the centroid not supported. Use a local thermostat. !!"
  else Except.ok ()

/-- **C8, counterexample.** A `ThermoNMGLEG` thermostat together with one
frozen atom does *not* trigger the fatal error (the claim states it does):
construction succeeds, because the `("A" or "B")` expression short-circuits
to `"ThermoPILE_G"` and `"ThermoNMGLEG "` (with its trailing space) is
unreachable. -/
theorem C8_claim_counterexample :
    thermo_fixatoms_check "ThermoNMGLEG" 1 = Except.ok () := by
  decide

/-- **C8 (amended).** The fatal fixed-atoms/global-thermostat error fires
exactly when the thermostat class is named `ThermoPILE_G` and the
frozen-atom list is non-empty; every other thermostat class — including
`ThermoNMGLEG`, for which the check is effectively unreachable — and every
empty frozen-atom list passes without this error. -/
theorem C8_thermo_fixatoms_check_iff (name : String) (n : ℕ) :
    (thermo_fixatoms_check name n =
        Except.error
          "!! Sorry, fixed atoms and global thermostat on the centroid not supported. Use a local thermostat. !!"
      ↔ (name = "ThermoPILE_G" ∧ 0 < n)) ∧
    (¬ (name = "ThermoPILE_G" ∧ 0 < n) →
      thermo_fixatoms_check name n = Except.ok ()) := by
  constructor
  · by_cases h : name = "ThermoPILE_G" ∧ 0 < n <;>
      simp [thermo_fixatoms_check, h]
  · intro h
    simp [thermo_fixatoms_check, h]

/-! ## Unrecognised ensemble mode (claim C10) -/

inductive IntegratorKind where
  | nve | nvt | nvt_cc | npt | nst | sc | scnpt | eda_nve | dummy
  deriving DecidableEq, Repr

/-- The integrator-selection chain of `Dynamics.__init__`
(dynamics.py lines 97-116): eight recognised ensemble names, with
`DummyIntegrator` as the silent `else` fallback — no error is raised. -/
def select_integrator (mode : String) : IntegratorKind :=
  if mode = "nve" then IntegratorKind.nve
  else if mode = "nvt" then IntegratorKind.nvt
  else if mode = "nvt-cc" then IntegratorKind.nvt_cc
  else if mode = "npt" then IntegratorKind.npt
  else if mode = "nst" then IntegratorKind.nst
  else if mode = "sc" then IntegratorKind.sc
  else if mode = "scnpt" then IntegratorKind.scnpt
  else if mode = "eda-nve" then IntegratorKind.eda_nve
  else IntegratorKind.dummy

structure MDState where
  q : List ℚ
  p : List ℚ
  time : ℚ
  deriving DecidableEq, Repr

/-- `DummyIntegrator.step` / `pstep` / `qcstep` are all `pass`
(dynamics.py lines 364-374). -/
def dummy_integrator_step (s : MDState) : MDState := s

/-- `Dynamics.step` (lines 255-268) with the dummy integrator: the no-op
`integrator.step`, then `time += dt`; the EDA clock check is skipped because
an unrecognised mode is not a field-driven ensemble. -/
def dynamics_step_dummy (dt : ℚ) (s : MDState) : MDState :=
  let s1 := dummy_integrator_step s
  { s1 with time := s1.time + dt }

/-- **C10 (confirmed).** Any mode string outside the eight recognised
ensemble names silently selects the no-op `DummyIntegrator` — no error is
raised — and every outer step leaves positions and momenta unchanged
(only the simulation time advances). -/
theorem C10_unknown_mode_dummy (mode : String)
    (h : mode ∉ ["nve", "nvt", "nvt-cc", "npt", "nst", "sc", "scnpt", "eda-nve"]) :
    select_integrator mode = IntegratorKind.dummy ∧
      ∀ (dt : ℚ) (s : MDState),
        (dynamics_step_dummy dt s).q = s.q ∧
          (dynamics_step_dummy dt s).p = s.p ∧
          (dynamics_step_dummy dt s).time = s.time + dt := by
  simp only [List.mem_cons, List.not_mem_nil, or_false, not_or] at h
  obtain ⟨h1, h2, h3, h4, h5, h6, h7, h8⟩ := h
  exact ⟨by simp [select_integrator, h1, h2, h3, h4, h5, h6, h7, h8],
    fun dt s => ⟨rfl, rfl, rfl⟩⟩

theorem C10_unknown_mode_dummy_witness :
    select_integrator "foo" = IntegratorKind.dummy ∧
      ∀ (dt : ℚ) (s : MDState),
        (dynamics_step_dummy dt s).q = s.q ∧
          (dynamics_step_dummy dt s).p = s.p ∧
          (dynamics_step_dummy dt s).time = s.time + dt :=
  C10_unknown_mode_dummy "foo" (by decide)


/-! ## Binding order of `Dynamics.bind` (claim C7) -/

inductive BindEv where
  | thermostat
  | barostat
  | integrator
  | eda
  | pconstraints
  deriving DecidableEq, Repr

/-- The sequence of collaborator `bind` calls and the `pconstraints()` call
made by `Dynamics.bind` (dynamics.py lines 185-226), projected onto those
events: `thermostat.bind` (189), `barostat.bind` (195-204),
`integrator.bind` (207), `eda.bind` when the ensemble is field-driven
(219-220), `integrator.bind` again (223), `pconstraints` (226).  The
ensemble-specific validation (229-248) makes no further bind calls. -/
def dynamics_bind_trace (eda_on : Bool) : List BindEv :=
  [BindEv.thermostat, BindEv.barostat, BindEv.integrator] ++
    (if eda_on then [BindEv.eda] else []) ++
    [BindEv.integrator, BindEv.pconstraints]

/-- **C7, counterexample.** In the field-driven case the claimed order
(thermostat, barostat, EDA, integrator, pconstraints) is not the code's
order: an `integrator.bind` call occurs *before* `eda.bind` (the integrator
is in fact bound twice, at lines 207 and 223), so the EDA extension is not
bound strictly before the integrator. -/
theorem C7_claim_counterexample :
    (dynamics_bind_trace true).indexOf BindEv.integrator <
      (dynamics_bind_trace true).indexOf BindEv.eda ∧
      dynamics_bind_trace true ≠
        [BindEv.thermostat, BindEv.barostat, BindEv.eda, BindEv.integrator,
          BindEv.pconstraints] := by
  decide

/-- **C7 (amended).** `Dynamics.bind` binds the thermostat first, then the
barostat, then the integrator, then (when present) the EDA extension, then
the integrator a *second* time — so the EDA extension is bound before the
final integrator bind but after an initial one — and `pconstraints` is
applied exactly once, immediately after the last bind. -/
theorem C7_bind_order :
    dynamics_bind_trace true =
      [BindEv.thermostat, BindEv.barostat, BindEv.integrator, BindEv.eda,
        BindEv.integrator, BindEv.pconstraints] ∧
    dynamics_bind_trace false =
      [BindEv.thermostat, BindEv.barostat, BindEv.integrator,
        BindEv.integrator, BindEv.pconstraints] ∧
    (∀ b : Bool, (dynamics_bind_trace b).count BindEv.pconstraints = 1 ∧
      (dynamics_bind_trace b).getLast? = some BindEv.pconstraints) := by
  decide

/-! ## EDA clock handling (claim C4) -/

/-- The `mts_time` update of `EDAIntegrator.pstep` (dynamics.py lines
874-883): the clock advances by `dt` iff `mts_time == time`; otherwise the
cached force value is reused and the clock is untouched. -/
def eda_pstep_clock (time dt mts : ℚ) : ℚ :=
  if mts = time then mts + dt else mts

/-- The value of `mts_time` after `k` momentum kicks within one outer step
(`time` is constant while the integrator runs). -/
def eda_clock_after (time dt mts : ℚ) : ℕ → ℚ
  | 0 => mts
  | k + 1 => eda_pstep_clock time dt (eda_clock_after time dt mts k)

/-- The clock-consistency check of `Dynamics.step` (lines 260-268), run
after `time += dt` for field-driven ensembles: abort iff
`abs(time - mts_time) > 1e-12`. -/
def eda_clock_check (time mts : ℚ) : Except String Unit :=
  if |time - mts| > 1 / 1000000000000 then
    Except.error
      "The time at which the Electric Field is evaluated is not properly updated!"
  else Except.ok ()

/-- **C4 (confirmed).** Within one outer step that starts synchronised
(`mts_time = time`), the first momentum kick advances `mts_time` by `dt`
and every further kick leaves it unchanged, so the clock is advanced
exactly once; in particular after the two kicks an EDA-NVE outer step
performs (`countP 0 (mtsprop [1]) = 2`, the single-level trace), the
orchestrator check `|time + dt - mts_time| > 1e-12` passes, and on any pair
of clocks differing by more than `1e-12` the check raises the fatal
error. -/
theorem C4_eda_clock (dt time mts : ℚ) (hsync : mts = time) (hdt : dt ≠ 0) :
    eda_clock_after time dt mts 1 = time + dt ∧
    (∀ k : ℕ, 1 ≤ k → eda_clock_after time dt mts k = time + dt) ∧
    countP 0 (mtsprop [1]) = 2 ∧
    (∀ k : ℕ, 1 ≤ k →
      eda_clock_check (time + dt) (eda_clock_after time dt mts k) =
        Except.ok ()) ∧
    (∀ t m : ℚ, |t - m| > 1 / 1000000000000 →
      eda_clock_check t m =
        Except.error
          "The time at which the Electric Field is evaluated is not properly updated!") := by
  subst hsync
  have h1 : eda_clock_after mts dt mts 1 = mts + dt := by
    simp [eda_clock_after, eda_pstep_clock]
  have hstay : ∀ k : ℕ, 1 ≤ k → eda_clock_after mts dt mts k = mts + dt := by
    intro k hk
    induction k with
    | zero => omega
    | succ n ih =>
        rcases Nat.lt_or_ge 1 (n + 1) with hlt | hge
        · have hn : 1 ≤ n := by omega
          show eda_pstep_clock mts dt (eda_clock_after mts dt mts n) = mts + dt
          rw [ih hn]
          simp [eda_pstep_clock, hdt]
        · have : n = 0 := by omega
          subst this
          exact h1
  have hcount : countP 0 (mtsprop [1]) = 2 := by
    rw [mtsprop_eq, countP_append, countP_ba_zero, countP_ab_zero]
  refine ⟨h1, hstay, hcount, ?_, ?_⟩
  · intro k hk
    rw [hstay k hk]
    simp [eda_clock_check]
  · intro t m h
    rw [eda_clock_check, if_pos h]

theorem C4_eda_clock_witness :
    eda_clock_after 0 1 0 1 = 0 + 1 ∧
    (∀ k : ℕ, 1 ≤ k → eda_clock_after 0 1 0 k = 0 + 1) ∧
    countP 0 (mtsprop [1]) = 2 ∧
    (∀ k : ℕ, 1 ≤ k →
      eda_clock_check (0 + 1) (eda_clock_after 0 1 0 k) = Except.ok ()) ∧
    (∀ t m : ℚ, |t - m| > 1 / 1000000000000 →
      eda_clock_check t m =
        Except.error
          "The time at which the Electric Field is evaluated is not properly updated!") :=
  C4_eda_clock 1 0 0 rfl (by norm_num)


/-! ## Derived timesteps `pdt` and `qdt` (claim C9) -/

/-- The in-place loop of `DummyIntegrator.get_pdt` (lines 283-288):
`dtl[i] *= dtl[i-1]` for `i = 1..`, i.e. running products with accumulator
`acc` (initially `1`). -/
def cumprod_loop : ℚ → List ℚ → List ℚ
  | _, [] => []
  | acc, x :: xs => (acc * x) :: cumprod_loop (acc * x) xs

/-- The elementwise `1.0 / self.nmts` of `get_pdt`. -/
def inv_nat (m : ℕ) : ℚ := 1 / (m : ℚ)

/-- `DummyIntegrator.get_pdt` (dynamics.py lines 283-288):
`dtl = 1.0 / nmts`, the cumulative-product loop, then `dtl *= dt * 0.5`. -/
def get_pdt (dt : ℚ) (nmts : List ℕ) : List ℚ :=
  (cumprod_loop 1 (nmts.map inv_nat)).map (fun v => v * (dt * (1 / 2)))

/-- `self.inmts = np.prod(self.nmts)` (line 323). -/
def inmts (nmts : List ℕ) : ℚ := (nmts.prod : ℚ)

/-- `DummyIntegrator.get_qdt` (lines 280-281): `dt * 0.5 / inmts`. -/
def get_qdt (dt : ℚ) (nmts : List ℕ) : ℚ := dt * (1 / 2) / inmts nmts

/-- The depend nodes for `pdt`/`qdt` (lines 326-346) declare `splitting`
among their dependencies, but the recomputation rules never read it. -/
def pdt_node (_splitting : String) (dt : ℚ) (nmts : List ℕ) : List ℚ :=
  get_pdt dt nmts

def qdt_node (_splitting : String) (dt : ℚ) (nmts : List ℕ) : ℚ :=
  get_qdt dt nmts

theorem cumprod_loop_length (l : List ℚ) : ∀ acc : ℚ,
    (cumprod_loop acc l).length = l.length := by
  induction l with
  | nil => intro acc; rfl
  | cons x xs ih => intro acc; simp [cumprod_loop, ih]

theorem cumprod_loop_getD (l : List ℚ) : ∀ (k : ℕ) (acc : ℚ), k < l.length →
    (cumprod_loop acc l).getD k 0 = acc * ((l.take (k + 1)).prod) := by
  induction l with
  | nil => intro k acc h; simp at h
  | cons x xs ih =>
      intro k acc h
      cases k with
      | zero => simp [cumprod_loop]
      | succ k =>
          have hk : k < xs.length := by simpa using Nat.lt_of_succ_lt_succ h
          calc (cumprod_loop acc (x :: xs)).getD (k + 1) 0
              = (cumprod_loop (acc * x) xs).getD k 0 := by
                simp [cumprod_loop]
            _ = (acc * x) * ((xs.take (k + 1)).prod) := ih k (acc * x) hk
            _ = acc * (((x :: xs).take (k + 2)).prod) := by
                rw [List.take_succ_cons, List.prod_cons]; ring

theorem getD_map_mul (l : List ℚ) (c : ℚ) : ∀ k : ℕ, k < l.length →
    ((l.map (fun v => v * c)).getD k 0 = (l.getD k 0) * c) := by
  induction l with
  | nil => intro k h; simp at h
  | cons x xs ih =>
      intro k h
      cases k with
      | zero => simp
      | succ k =>
          have hk : k < xs.length := by simpa using Nat.lt_of_succ_lt_succ h
          simpa using ih k hk

theorem prod_map_inv (l : List ℕ) :
    ((l.map inv_nat).prod) = 1 / ((l.prod : ℚ)) := by
  induction l with
  | nil => simp
  | cons x xs ih =>
      simp only [List.map_cons, List.prod_cons, ih, Nat.cast_mul, inv_nat]
      rw [one_div_mul_one_div]

/-- **C9 (confirmed).** For every `dt`, splitting mode and `nmts` vector,
the derived timesteps have the closed forms
`pdt[k] = dt / (2 * nmts[0] * ... * nmts[k])` and
`qdt = dt / (2 * prod(nmts))`; both are independent of the splitting mode
even though the depend nodes declare it as a dependency. -/
theorem C9_derived_timesteps (dt : ℚ) (s1 s2 : String) (nmts : List ℕ)
    (k : ℕ) (hk : k < nmts.length) :
    (get_pdt dt nmts).getD k 0 =
        dt / (2 * (((nmts.take (k + 1)).prod : ℕ) : ℚ)) ∧
      get_qdt dt nmts = dt / (2 * ((nmts.prod : ℕ) : ℚ)) ∧
      pdt_node s1 dt nmts = pdt_node s2 dt nmts ∧
      qdt_node s1 dt nmts = qdt_node s2 dt nmts := by
  refine ⟨?_, ?_, rfl, rfl⟩
  · have hlen : k < (nmts.map inv_nat).length := by simpa using hk
    have hlen2 : k < (cumprod_loop 1 (nmts.map inv_nat)).length := by
      rw [cumprod_loop_length]; exact hlen
    rw [get_pdt, getD_map_mul _ _ k hlen2, cumprod_loop_getD _ k 1 hlen,
      ← List.map_take, prod_map_inv]
    rw [one_mul, one_div_mul_eq_div, mul_one_div, div_div]
  · rw [get_qdt, inmts, mul_one_div, div_div]

theorem C9_derived_timesteps_witness :
    (get_pdt 1 [2, 3]).getD 1 0 =
        1 / (2 * (((([2, 3] : List ℕ).take 2).prod : ℕ) : ℚ)) ∧
      get_qdt 1 [2, 3] = 1 / (2 * ((([2, 3] : List ℕ).prod : ℕ) : ℚ)) ∧
      pdt_node "obabo" 1 [2, 3] = pdt_node "baoab" 1 [2, 3] ∧
      qdt_node "obabo" 1 [2, 3] = qdt_node "baoab" 1 [2, 3] :=
  C9_derived_timesteps 1 "obabo" "baoab" [2, 3] 1 (by decide)


/-! ## Momentum constraints `pconstraints` (claim C5)

`DummyIntegrator.pconstraints` (dynamics.py lines 376-422) on `nb` beads of
`na` atoms.  `p b a i` is the momentum component of atom `a` in bead `b`
along Cartesian direction `i`; `m a` is the atom mass (the rows of
`beads.m3` all carry the per-atom masses, and `beads[0].M` is their sum). -/

structure BeadState (nb na : ℕ) where
  p : Fin nb → Fin na → Fin 3 → ℚ
  eens : ℚ

/-- `self.beads[0].M`: the total mass of one bead. -/
def bead_M (na : ℕ) (m : Fin na → ℚ) : ℚ := ∑ a, m a

/-- The `if self.fixcom:` block (lines 389-404): per direction, sum the
momenta (`pcom`), accumulate `dens += pcom**2`, divide `pcom /= M*nb`,
subtract the mass-weighted drift, and finally credit
`eens += dens * 0.5 / (M*nb)`. -/
def pconstraints_com (nb na : ℕ) (fixcom : Bool) (m : Fin na → ℚ)
    (s : BeadState nb na) : BeadState nb na :=
  if fixcom then
    { p := fun b a i =>
        s.p b a i -
          m a * ((∑ b', ∑ a', s.p b' a' i) / (bead_M na m * (nb : ℚ))),
      eens := s.eens +
        (∑ i : Fin 3, (∑ b', ∑ a', s.p b' a' i) ^ 2) * (1 / 2) /
          (bead_M na m * (nb : ℚ)) }
  else s

/-- The `if len(self.fixatoms) > 0:` block (lines 406-422): per bead and
per direction, credit `0.5 * dot(bp[fix], bp[fix] / m[fix])` to the ledger,
then zero the frozen components. -/
def pconstraints_fix (nb na : ℕ) (fixatoms : Finset (Fin na))
    (m : Fin na → ℚ) (s : BeadState nb na) : BeadState nb na :=
  if 0 < fixatoms.card then
    { p := fun b a i => if a ∈ fixatoms then 0 else s.p b a i,
      eens := s.eens + ∑ b, ∑ i : Fin 3,
        (1 / 2) * ∑ a ∈ fixatoms, s.p b a i * (s.p b a i / m a) }
  else s

/-- `pconstraints`: the center-of-mass block runs first, the frozen-atom
block second, on the already-corrected momenta. -/
def pconstraints (nb na : ℕ) (fixcom : Bool) (fixatoms : Finset (Fin na))
    (m : Fin na → ℚ) (s : BeadState nb na) : BeadState nb na :=
  pconstraints_fix nb na fixatoms m (pconstraints_com nb na fixcom m s)

/-- One bead, two atoms of unit mass, momenta `(1, 0, 0)` and `(3, 0, 0)`. -/
def cexState : BeadState 1 2 :=
  { p := fun _ a i => if i = 0 then (if a = 0 then 1 else 3) else 0,
    eens := 0 }

/-- **C5, counterexample.** With center-of-mass fixing enabled *and* atom 1
frozen, the total momentum after `pconstraints` is not zero: the COM pass
leaves momenta `(-1, +1)` along x, then zeroing the frozen atom leaves a
total of `-1`.  The claim's unconditional zero-total-momentum statement
fails as soon as frozen atoms are configured, because the frozen-atom
zeroing runs after the COM correction. -/
theorem C5_claim_counterexample :
    (∑ b, ∑ a,
        (pconstraints 1 2 true {1} (fun _ => 1) cexState).p b a 0) ≠ 0 := by
  norm_num [pconstraints, pconstraints_com, pconstraints_fix, cexState,
    bead_M, Fin.sum_univ_succ, Finset.mem_singleton, Finset.card_singleton]

/-- **C5 (amended).** After `pconstraints`: (i) with center-of-mass fixing
enabled and *no frozen atoms configured*, the summed momentum of all
particles and beads in each Cartesian direction is zero and the ledger
gains exactly the pre-removal drift kinetic energy
`Σ_i p_com_i² / (2·M·nbeads)`; (ii) frozen atoms end with zero momentum in
all three directions; (iii) the ledger is credited with the frozen atoms'
pre-zeroing (post-COM) kinetic energy `Σ p²/(2m)`; (iv) the center-of-mass
correction is applied before the frozen-atom zeroing (so with both
configured, the frozen-atom zeroing can reintroduce a nonzero total). -/
theorem C5_pconstraints (nb na : ℕ) (fixcom : Bool)
    (fixatoms : Finset (Fin na)) (m : Fin na → ℚ) (s : BeadState nb na)
    (hnb : 0 < nb) (hna : 0 < na) (hm : ∀ a, 0 < m a) :
    (fixcom = true → fixatoms = ∅ →
      (∀ i : Fin 3,
        ∑ b, ∑ a, (pconstraints nb na fixcom fixatoms m s).p b a i = 0) ∧
      (pconstraints nb na fixcom fixatoms m s).eens =
        s.eens + (∑ i : Fin 3, (∑ b, ∑ a, s.p b a i) ^ 2) /
          (2 * bead_M na m * (nb : ℚ))) ∧
    (∀ a ∈ fixatoms, ∀ (b : Fin nb) (i : Fin 3),
      (pconstraints nb na fixcom fixatoms m s).p b a i = 0) ∧
    (0 < fixatoms.card →
      (pconstraints nb na fixcom fixatoms m s).eens =
        (pconstraints_com nb na fixcom m s).eens +
          ∑ b, ∑ i : Fin 3, ∑ a ∈ fixatoms,
            ((pconstraints_com nb na fixcom m s).p b a i) ^ 2 / (2 * m a)) ∧
    pconstraints nb na fixcom fixatoms m s =
      pconstraints_fix nb na fixatoms m (pconstraints_com nb na fixcom m s) := by
  have hMpos : 0 < bead_M na m :=
    Finset.sum_pos (fun a _ => hm a) ⟨⟨0, hna⟩, Finset.mem_univ _⟩
  have hnbQ : (0 : ℚ) < (nb : ℚ) := by exact_mod_cast hnb
  have hMne : bead_M na m ≠ 0 := ne_of_gt hMpos
  have hnbne : ((nb : ℚ)) ≠ 0 := ne_of_gt hnbQ
  refine ⟨?_, ?_, ?_, rfl⟩
  · intro hc he
    subst hc
    subst he
    constructor
    · intro i
      simp only [pconstraints, pconstraints_fix, Finset.card_empty]
      rw [if_neg (lt_irrefl 0)]
      simp only [pconstraints_com]
      rw [if_pos trivial]
      show ∑ b : Fin nb, ∑ a : Fin na,
          (s.p b a i -
            m a * ((∑ b', ∑ a', s.p b' a' i) / (bead_M na m * (nb : ℚ)))) = 0
      rw [Finset.sum_congr rfl (fun b _ => Finset.sum_sub_distrib),
        Finset.sum_sub_distrib]
      have hinner : ∀ b : Fin nb,
          (∑ a, m a *
            ((∑ b', ∑ a', s.p b' a' i) / (bead_M na m * (nb : ℚ)))) =
            bead_M na m *
              ((∑ b', ∑ a', s.p b' a' i) / (bead_M na m * (nb : ℚ))) := by
        intro b
        rw [← Finset.sum_mul]
        rfl
      rw [Finset.sum_congr rfl (fun b _ => hinner b), Finset.sum_const,
        Finset.card_univ, Fintype.card_fin, nsmul_eq_mul]
      have hP : ((nb : ℚ)) *
          (bead_M na m *
            ((∑ b', ∑ a', s.p b' a' i) / (bead_M na m * (nb : ℚ)))) =
            ∑ b', ∑ a', s.p b' a' i := by
        field_simp
        ring
      rw [hP, sub_self]
    · simp only [pconstraints, pconstraints_fix, Finset.card_empty]
      rw [if_neg (lt_irrefl 0)]
      simp only [pconstraints_com]
      rw [if_pos trivial]
      show s.eens +
          (∑ i : Fin 3, (∑ b', ∑ a', s.p b' a' i) ^ 2) * (1 / 2) /
            (bead_M na m * (nb : ℚ)) =
        s.eens + (∑ i : Fin 3, (∑ b, ∑ a, s.p b a i) ^ 2) /
          (2 * bead_M na m * (nb : ℚ))
      congr 1
      rw [mul_one_div, div_div, ← mul_assoc]
  · intro a ha b i
    have hcard : 0 < fixatoms.card := Finset.card_pos.mpr ⟨a, ha⟩
    simp only [pconstraints, pconstraints_fix]
    rw [if_pos hcard]
    simp [ha]
  · intro hcard
    simp only [pconstraints, pconstraints_fix]
    rw [if_pos hcard]
    show (pconstraints_com nb na fixcom m s).eens +
        (∑ b, ∑ i : Fin 3, (1 / 2) * ∑ a ∈ fixatoms,
          (pconstraints_com nb na fixcom m s).p b a i *
            ((pconstraints_com nb na fixcom m s).p b a i / m a)) =
      (pconstraints_com nb na fixcom m s).eens +
        ∑ b, ∑ i : Fin 3, ∑ a ∈ fixatoms,
          ((pconstraints_com nb na fixcom m s).p b a i) ^ 2 / (2 * m a)
    congr 1
    refine Finset.sum_congr rfl (fun b _ => ?_)
    refine Finset.sum_congr rfl (fun i _ => ?_)
    rw [Finset.mul_sum]
    refine Finset.sum_congr rfl (fun a _ => ?_)
    ring

/-- One bead, one atom of unit mass, momentum `(2, 2, 2)`. -/
def wState : BeadState 1 1 := { p := fun _ _ _ => 2, eens := 5 }

theorem C5_pconstraints_witness :
    (∀ i : Fin 3,
      ∑ b, ∑ a,
        (pconstraints 1 1 true ∅ (fun _ => (1 : ℚ)) wState).p b a i = 0) ∧
      (pconstraints 1 1 true ∅ (fun _ => (1 : ℚ)) wState).eens =
        wState.eens +
          (∑ i : Fin 3, (∑ b, ∑ a, wState.p b a i) ^ 2) /
            (2 * bead_M 1 (fun _ => (1 : ℚ)) * ((1 : ℕ) : ℚ)) :=
  (C5_pconstraints 1 1 true ∅ (fun _ => (1 : ℚ)) wState (by decide) (by decide)
      (fun a => by norm_num)).1 rfl rfl


end IPI
